import Mathlib

/-!
# Verification of the meudinheiro bank-statement ingestion pipeline

Shallow embedding of `src/utils/bankStatementParser.ts` (current version: the
one exporting `ParsedBalance`, `details` and `documentId`, which
`src/firebase/firestore.ts` imports) and of `importLedgerEntries` /
`importAccountBalances` from `src/firebase/firestore.ts`.

Modelling conventions:
* JS strings are Lean `String`s; character codes are Unicode code points
  (`Char.toNat`), which agrees with `charCodeAt` UTF-16 code units on the
  Basic Multilingual Plane (all inputs relevant here).
* JS 32-bit integer operations (`Math.imul`, `^`, `>>>`) are modelled on
  `Nat` values kept below `2 ^ 32`; the signed/unsigned reinterpretation the
  JS engine performs is invisible at this granularity because every operation
  used commutes with the mod-`2^32` bijection.
* `number` amounts are exact: `parseFloat` on the decimal strings produced by
  this pipeline followed by `Math.round(x * 100)` equals exact rational
  evaluation for the at-most-2-fraction-digit inputs the code feeds it, so
  amounts are modelled with `Rat` and `Int`.
* `new Date(...)` string parsing is modelled by the ISO rules (a component
  out of calendar range yields an invalid date); engine-specific lenient
  fallback formats are not modelled and are never exercised by the claims.
* Firestore is a list of documents; `Timestamp.now()` fields (createdAt,
  updatedAt) are not modelled, as no claim mentions them.
-/

namespace MeuDinheiro

/-- `src/domain/types.ts`: `LedgerEntryType = 'income' | 'expense' | 'transfer'`. -/
inductive LedgerEntryType where
  | income
  | expense
  | transfer
  deriving DecidableEq, Repr

-- ── Hash (`computeImportHash`) ────────────────────────────────────────────────

/-- JS `Math.imul` on values represented as naturals below `2 ^ 32`. -/
def imul32 (a b : Nat) : Nat := (a * b) % (2 ^ 32)

/-- JS `x >>> k` on a value represented as a natural below `2 ^ 32`. -/
def shr32 (a k : Nat) : Nat := a / (2 ^ k)

/-- One loop iteration of `computeImportHash`:
`h1 = Math.imul(h1 ^ ch, 2654435761); h2 = Math.imul(h2 ^ ch, 1597334677)`. -/
def hashStep (h : Nat × Nat) (ch : Nat) : Nat × Nat :=
  (imul32 (h.1 ^^^ ch) 2654435761, imul32 (h.2 ^^^ ch) 1597334677)

/-- The two accumulators after the character loop of `computeImportHash`,
seeded with `0xdeadbeef` and `0x41c6ce57`. -/
def hashLoop (codes : List Nat) : Nat × Nat :=
  codes.foldl hashStep (0xdeadbeef, 0x41c6ce57)

/-- The finalisation of `computeImportHash`: note the JS code reassigns `h1`
first, so the new `h2` is mixed with the already-finalised `h1`. -/
def hashFinalize (h : Nat × Nat) : Nat × Nat :=
  let h1 := (imul32 (h.1 ^^^ shr32 h.1 16) 2246822507) ^^^
    (imul32 (h.2 ^^^ shr32 h.2 13) 3266489909)
  let h2 := (imul32 (h.2 ^^^ shr32 h.2 16) 2246822507) ^^^
    (imul32 (h1 ^^^ shr32 h1 13) 3266489909)
  (h1, h2)

/-- One lowercase hex digit for a nibble (`0`–`9`, `a`–`f`). -/
def hexDigit (n : Nat) : Char :=
  if n < 10 then Char.ofNat (48 + n) else Char.ofNat (87 + n)

/-- A lowercase hexadecimal character. -/
def isHexLowerChar (c : Char) : Bool :=
  ('0' ≤ c && c ≤ '9') || ('a' ≤ c && c ≤ 'f')

/-- JS `(h >>> 0).toString(16).padStart(8, '0')` for `h < 2 ^ 32`:
the fixed-width 8-nibble lowercase hex rendering (for values below `16 ^ 8`
the padded minimal rendering and the fixed-width rendering coincide). -/
def toHex8 (n : Nat) : String :=
  String.mk [hexDigit (n / 16 ^ 7 % 16), hexDigit (n / 16 ^ 6 % 16),
    hexDigit (n / 16 ^ 5 % 16), hexDigit (n / 16 ^ 4 % 16),
    hexDigit (n / 16 ^ 3 % 16), hexDigit (n / 16 ^ 2 % 16),
    hexDigit (n / 16 ^ 1 % 16), hexDigit (n % 16)]

/-- `computeImportHash(date, description, amountCents)` from
`src/utils/bankStatementParser.ts`: hash of
`` `${date}|${description}|${amountCents}` ``, returned as `hi + lo`. -/
def computeImportHash (date description : String) (amountCents : Int) : String :=
  let raw := date ++ "|" ++ description ++ "|" ++ toString amountCents
  let h := hashFinalize (hashLoop (raw.data.map Char.toNat))
  toHex8 h.2 ++ toHex8 h.1

-- ── Dates ─────────────────────────────────────────────────────────────────────

/-- A calendar date; `new Date(...)` values in this pipeline are anchored at a
fixed mid-day time, so only the calendar components are significant. -/
structure SimpleDate where
  year : Nat
  month : Nat
  day : Nat
  deriving DecidableEq, Repr

/-- Gregorian leap-year rule (as implemented by the JS `Date` object). -/
def isLeap (y : Nat) : Bool :=
  (y % 4 == 0 && y % 100 != 0) || y % 400 == 0

/-- Days in a month per the JS `Date` object. -/
def daysInMonth (y m : Nat) : Nat :=
  if m == 2 then (if isLeap y then 29 else 28)
  else if m == 4 || m == 6 || m == 9 || m == 11 then 30
  else 31

/-- Whether `new Date("YYYY-MM-DDT12:00:00")` yields a valid date: the ISO
rules reject a month outside 1–12 or a day outside the month's length. -/
def validDate (y m d : Nat) : Bool :=
  1 ≤ m && m ≤ 12 && 1 ≤ d && d ≤ daysInMonth y m

/-- The whitespace class matched by JS `trim` / `\s` (ASCII part; the Unicode
space characters never occur in the inputs considered). -/
def isWS (c : Char) : Bool :=
  c == ' ' || c == Char.ofNat 9 || c == Char.ofNat 10 || c == Char.ofNat 12 ||
    c == Char.ofNat 13 || c == Char.ofNat 11 || c == Char.ofNat 160

/-- JS `String.prototype.trim` on a character list. -/
def trimChars (s : List Char) : List Char :=
  ((s.dropWhile isWS).reverse.dropWhile isWS).reverse

def isDigitChar (c : Char) : Bool := '0' ≤ c && c ≤ '9'

/-- Numeric value of a list of digit characters ("00" → 0, "31" → 31). -/
def digitsToNat (s : List Char) : Nat :=
  s.foldl (fun acc c => acc * 10 + (c.toNat - 48)) 0

/-- `parseDate(raw)` (current `bankStatementParser.ts` version): trim, then
`DD/MM/YYYY` (anchored; day or month `00` rejected as placeholder; invalid
calendar dates rejected via the `isNaN` check on the constructed `Date`), else
`YYYY-MM-DD` as a prefix (trailing text ignored), else no date. -/
def parseDate (raw : String) : Option SimpleDate :=
  let s := trimChars raw.data
  match s with
  | [d1, d2, sl1, m1, m2, sl2, y1, y2, y3, y4] =>
    if sl1 = '/' ∧ sl2 = '/' ∧ [d1, d2, m1, m2, y1, y2, y3, y4].all isDigitChar then
      -- the source rejects `brMatch[1] === '00' || brMatch[2] === '00'`
      if (d1 = '0' ∧ d2 = '0') ∨ (m1 = '0' ∧ m2 = '0') then none
      else
        let y := digitsToNat [y1, y2, y3, y4]
        let m := digitsToNat [m1, m2]
        let d := digitsToNat [d1, d2]
        if validDate y m d then some ⟨y, m, d⟩ else none
    else isoPrefixDate s
  | _ => isoPrefixDate s
where
  /-- The `^(\d{4})-(\d{2})-(\d{2})` prefix branch of `parseDate`. -/
  isoPrefixDate (s : List Char) : Option SimpleDate :=
    match s with
    | y1 :: y2 :: y3 :: y4 :: da1 :: m1 :: m2 :: da2 :: d1 :: d2 :: _ =>
      if da1 = '-' ∧ da2 = '-' ∧ [y1, y2, y3, y4, m1, m2, d1, d2].all isDigitChar then
        let y := digitsToNat [y1, y2, y3, y4]
        let m := digitsToNat [m1, m2]
        let d := digitsToNat [d1, d2]
        if validDate y m d then some ⟨y, m, d⟩ else none
      else none
    | _ => none

/-- Left-pad a decimal rendering with zeros to width `w` (as `toISOString`
emits fixed-width components). -/
def padZeros (w n : Nat) : String :=
  let s := toString n
  String.mk (List.replicate (w - s.length) '0') ++ s

/-- `date.toISOString().slice(0, 10)` for a mid-day-anchored date: the
`YYYY-MM-DD` rendering of the calendar components. -/
def dateToIso (d : SimpleDate) : String :=
  padZeros 4 d.year ++ "-" ++ padZeros 2 d.month ++ "-" ++ padZeros 2 d.day

-- ── Amounts (`parseAmountToCents`) ────────────────────────────────────────────

/-- A word character per JS `\w` / complement of `\W`. -/
def isWordChar (c : Char) : Bool :=
  ('a' ≤ c && c ≤ 'z') || ('A' ≤ c && c ≤ 'Z') || isDigitChar c || c == '_'

/-- JS `parseFloat` restricted to the plain-decimal grammar this pipeline can
feed it: optional sign, digits, optional point and fraction digits, optional
exponent; the longest valid prefix is taken and trailing garbage ignored; if
no digit is consumed the result is NaN (`none`).  The exact value is returned
as a pair `(mant, e)` denoting `mant * 10 ^ e` (exact decimal arithmetic; the
binary-double rounding of the engine agrees with it on every at-most-2
fraction-digit value this pipeline produces).  (`Infinity` literals and
whitespace skipping never arise here: the callers strip whitespace first.) -/
def jsParseFloat (s : List Char) : Option (Int × Int) :=
  let (sgn, rest) :=
    match s with
    | '-' :: r => ((-1 : Int), r)
    | '+' :: r => ((1 : Int), r)
    | r => ((1 : Int), r)
  let intPart := rest.takeWhile isDigitChar
  let rest2 := rest.dropWhile isDigitChar
  let (fracPart, rest3) :=
    match rest2 with
    | '.' :: r => (r.takeWhile isDigitChar, r.dropWhile isDigitChar)
    | r => ([], r)
  if intPart = [] ∧ fracPart = [] then none
  else
    let expo : Int :=
      match rest3 with
      | 'e' :: r => expDigits r
      | 'E' :: r => expDigits r
      | _ => 0
    some (sgn * (digitsToNat (intPart ++ fracPart) : Int),
      expo - fracPart.length)
where
  /-- Exponent part: optional sign then digits; a malformed exponent is
  ignored by `parseFloat` (exponent 0). -/
  expDigits (r : List Char) : Int :=
    match r with
    | '-' :: r2 => if r2.takeWhile isDigitChar = [] then 0
        else -(digitsToNat (r2.takeWhile isDigitChar) : Int)
    | '+' :: r2 => if r2.takeWhile isDigitChar = [] then 0
        else (digitsToNat (r2.takeWhile isDigitChar) : Int)
    | r2 => if r2.takeWhile isDigitChar = [] then 0
        else (digitsToNat (r2.takeWhile isDigitChar) : Int)

/-- `Math.round(value * 100)` for the exact value `mant * 10 ^ e`:
`Math.round` rounds half toward positive infinity, i.e.
`⌊value * 100 + 1/2⌋`, computed here with exact integer arithmetic
(`⌊a / b + 1/2⌋ = (2a + b).fdiv (2b)` for positive `b`). -/
def roundTimes100 (mant e : Int) : Int :=
  let e2 := e + 2
  if 0 ≤ e2 then mant * 10 ^ e2.toNat
  else
    let k := (-e2).toNat
    Int.fdiv (2 * mant + 10 ^ k) (2 * 10 ^ k)

/-- JS `Math.abs` on an integer amount. -/
def jsAbs (a : Int) : Int := if a < 0 then -a else a

/-- Replace the first occurrence of `a` by `b` (JS `replace(',', '.')` with a
string pattern replaces only the first occurrence). -/
def replaceFirst (a b : Char) : List Char → List Char
  | [] => []
  | c :: cs => if c = a then b :: cs else c :: replaceFirst a b cs

/-- Test for the grouped Brazilian pattern `^\d{1,3}(\.\d{3})*(,\d{1,2})?$`. -/
def isBrFormat (s : List Char) : Bool :=
  let lead := s.takeWhile isDigitChar
  let rest := s.dropWhile isDigitChar
  1 ≤ lead.length && lead.length ≤ 3 && brGroups rest
where
  /-- Zero or more `\.\d{3}` groups followed by an optional `,\d{1,2}`. -/
  brGroups : List Char → Bool
    | [] => true
    | '.' :: d1 :: d2 :: d3 :: rest =>
      isDigitChar d1 && isDigitChar d2 && isDigitChar d3 && brGroups rest
    | ',' :: d1 :: rest =>
      isDigitChar d1 && (rest = [] || (rest.length = 1 && rest.all isDigitChar))
    | _ => false

/-- `parseAmountToCents(raw)` (current version): strip `R`, `$` and
whitespace; record and strip a leading minus; on the Brazilian grouped pattern
drop the dots and turn the comma into a point, otherwise turn the first comma
into a point; `parseFloat`, NaN → 0, `Math.round(value * 100)`; reapply the
sign. -/
def parseAmountToCents (raw : String) : Int :=
  let cleaned := raw.data.filter (fun c => ¬(c = 'R' ∨ c = '$' ∨ isWS c))
  let negative := cleaned.head? = some '-'
  let cleaned2 := if negative then cleaned.tail else cleaned
  let cleaned3 :=
    if isBrFormat cleaned2 then
      replaceFirst ',' '.' (cleaned2.filter (fun c => c ≠ '.'))
    else
      replaceFirst ',' '.' cleaned2
  let cents : Int :=
    match jsParseFloat cleaned3 with
    | none => 0
    | some v => roundTimes100 v.1 v.2
  if negative then -cents else cents

/-- `entryType(amountCents)`: nonnegative → income, negative → expense. -/
def entryType (amountCents : Int) : LedgerEntryType :=
  if 0 ≤ amountCents then .income else .expense

-- ── Tokenizer ─────────────────────────────────────────────────────────────────

/-- Split on newline characters (one regex split step of `/\r?\n/` per `\n`;
the optional `\r` is removed by `dropTrailingCr` below). -/
def splitOnNl : List Char → List (List Char)
  | [] => [[]]
  | c :: cs =>
    match splitOnNl cs with
    | [] => [[c]]
    | h :: t => if c = Char.ofNat 10 then [] :: h :: t else (c :: h) :: t

/-- Remove one trailing carriage return (the `\r?` of the line split). -/
def dropTrailingCr (l : List Char) : List Char :=
  match l.getLast? with
  | some c => if c = Char.ofNat 13 then l.dropLast else l
  | none => l

/-- `text.split(/\r?\n/).map(l => l.trim()).filter(l => l.length > 0)`. -/
def splitLines (text : String) : List (List Char) :=
  (((splitOnNl text.data).map dropTrailingCr).map trimChars).filter (· ≠ [])

/-- The quote-aware field-splitting state machine of `splitRow` in `parseCsv`
(current version): a single or double quote opens a quoted region, a doubled
double quote inside one is an escaped literal quote (the `i++` lookahead
consumes both characters), a lone double quote closes it, and the delimiter
splits only outside quotes.  Fuel is the remaining input length: every step
consumes at least one character, so the initial fuel never runs out. -/
def splitRowGo (delim : Char) (fuel : Nat) (s current : List Char)
    (inQ : Bool) : List (List Char) :=
  match fuel with
  | 0 => [trimChars current]
  | fuel' + 1 =>
    match s with
    | [] => [trimChars current]
    | c :: cs =>
      if (c = '"' ∨ c = Char.ofNat 39) ∧ ¬inQ then
        splitRowGo delim fuel' cs current true
      else if c = '"' ∧ inQ then
        if cs.head? = some '"' then
          splitRowGo delim fuel' cs.tail (current ++ ['"']) true
        else splitRowGo delim fuel' cs current false
      else if c = delim ∧ ¬inQ then
        trimChars current :: splitRowGo delim fuel' cs [] inQ
      else
        splitRowGo delim fuel' cs (current ++ [c]) inQ

/-- `splitRow(line)` from `parseCsv` (lifted out of its closure; the captured
`delimiter` becomes the first argument). -/
def splitRow (delim : Char) (line : List Char) : List (List Char) :=
  splitRowGo delim line.length line [] false

-- ── HeaderClassifier ──────────────────────────────────────────────────────────

/-- JS `toLowerCase` restricted to ASCII and the Latin-1 uppercase letters
(the only characters bank-statement headers contain). -/
def jsToLower (c : Char) : Char :=
  if 'A' ≤ c ∧ c ≤ 'Z' then Char.ofNat (c.toNat + 32)
  else if 192 ≤ c.toNat ∧ c.toNat ≤ 222 ∧ c.toNat ≠ 215 then
    Char.ofNat (c.toNat + 32)
  else c

/-- `normalize('NFD').replace(/[̀-ͯ]/g, '')` on a lowercase Latin-1
letter: the canonical decomposition of each precomposed accented letter is the
base letter plus a combining mark in U+0300–U+036F, which is then removed, so
the net effect maps the accented letter to its base letter. -/
def stripDiacritic (c : Char) : Char :=
  let n := c.toNat
  if 224 ≤ n ∧ n ≤ 229 then 'a'
  else if n = 231 then 'c'
  else if 232 ≤ n ∧ n ≤ 235 then 'e'
  else if 236 ≤ n ∧ n ≤ 239 then 'i'
  else if n = 241 then 'n'
  else if 242 ≤ n ∧ n ≤ 246 then 'o'
  else if 249 ≤ n ∧ n ≤ 252 then 'u'
  else if n = 253 ∨ n = 255 then 'y'
  else c

/-- The `norm` helper of `parseCsv`: lowercase then strip diacritics. -/
def norm (s : List Char) : List Char :=
  s.map (fun c => stripDiacritic (jsToLower c))

/-- Prefix-alternation test: `^(p1|p2|...)`. -/
def startsWithAny (pats : List String) (s : List Char) : Bool :=
  pats.any (fun p => p.data.isPrefixOf s)

def isDateHeader (h : List Char) : Bool :=
  startsWithAny ["data", "date", "dt"] h

def isDescHeader (h : List Char) : Bool :=
  startsWithAny ["descri", "histor", "memo", "lanc", "descr", "desc"] h

def isDetailsHeader (h : List Char) : Bool :=
  startsWithAny ["detalhe", "detail", "complemento", "memo2"] h

/-- `^n[°o]?\s*(doc|documento)`: the optional `[°o]` is taken greedily, which
agrees with the backtracking semantics here since `doc` cannot start at an
`o`-consuming position and also at the same position without it. -/
def isDocHeader (h : List Char) : Bool :=
  match h with
  | 'n' :: rest =>
    let rest2 :=
      match rest with
      | c :: r => if c = '°' ∨ c = 'o' then r else rest
      | [] => rest
    startsWithAny ["doc"] (rest2.dropWhile isWS)
  | _ => false

/-- `^(valor|value|amount|val\b)`: `\b` holds at end of input or before a
non-word character. -/
def isValueHeader (h : List Char) : Bool :=
  startsWithAny ["valor", "value", "amount"] h ||
    (startsWithAny ["val"] h &&
      (match h.drop 3 with
       | [] => true
       | c :: _ => ¬ isWordChar c))

def isDebitHeader (h : List Char) : Bool :=
  startsWithAny ["debito", "debit", "saida"] h

def isCreditHeader (h : List Char) : Bool :=
  startsWithAny ["credito", "credit", "entrada"] h

def isTypeHeader (h : List Char) : Bool :=
  startsWithAny ["tipo"] h

-- ── RowClassifier (CSV path) ──────────────────────────────────────────────────

/-- `ParsedTransaction` (current version, with the optional `details` and
`documentId` fields). -/
structure ParsedTransaction where
  date : SimpleDate
  description : String
  details : Option String := none
  documentId : Option String := none
  amountCents : Int
  type : LedgerEntryType
  importHash : String
  deriving DecidableEq, Repr

/-- `ParsedBalance`: a bank-reported daily balance row. -/
structure ParsedBalance where
  date : SimpleDate
  balanceCents : Int
  importHash : String
  deriving DecidableEq, Repr

/-- `ParsedBankStatement`: the two sequences a parse produces together. -/
structure ParsedBankStatement where
  transactions : List ParsedTransaction
  balances : List ParsedBalance
  deriving DecidableEq, Repr

/-- Consume a literal (already-lowercased) pattern. -/
def afterLit (p s : List Char) : Option (List Char) :=
  if p.isPrefixOf s then some (s.drop p.length) else none

/-- Consume `\s+`. -/
def afterWsPlus (s : List Char) : Option (List Char) :=
  match s with
  | c :: r => if isWS c then some (r.dropWhile isWS) else none
  | [] => none

/-- `SKIP_SALDO_ANTERIOR = /^saldo\s+anterior/i`. -/
def matchSaldoAnterior (s : List Char) : Bool :=
  (do
    let r1 ← afterLit "saldo".data (s.map jsToLower)
    let r2 ← afterWsPlus r1
    afterLit "anterior".data r2).isSome

/-- `SKIP_SALDO_DO_DIA = /^saldo\s+do\s+dia/i`. -/
def matchSaldoDoDia (s : List Char) : Bool :=
  (do
    let r1 ← afterLit "saldo".data (s.map jsToLower)
    let r2 ← afterWsPlus r1
    let r3 ← afterLit "do".data r2
    let r4 ← afterWsPlus r3
    afterLit "dia".data r4).isSome

/-- `IS_SALDO = /^s\s+a\s+l\s+d\s+o/i`: the letter-spaced balance marker. -/
def isSaldoPat (s : List Char) : Bool :=
  (do
    let r1 ← afterLit "s".data (s.map jsToLower)
    let r2 ← afterWsPlus r1
    let r3 ← afterLit "a".data r2
    let r4 ← afterWsPlus r3
    let r5 ← afterLit "l".data r4
    let r6 ← afterWsPlus r5
    let r7 ← afterLit "d".data r6
    let r8 ← afterWsPlus r7
    afterLit "o".data r8).isSome

/-- The column indices `parseCsv` resolves from the header row (`dateIdx` and
`descIdx` are guaranteed present by the early-return guard; the rest keep
their `-1`-possible nature as `Option`). -/
structure CsvCtx where
  delim : Char
  dateIdx : Nat
  descIdx : Nat
  detailsIdx : Option Nat
  docIdx : Option Nat
  valueIdx : Option Nat
  debitIdx : Option Nat
  creditIdx : Option Nat
  typeIdx : Option Nat
  deriving Repr

/-- What one CSV data row contributes. -/
inductive RowAction where
  | skip
  | bal (b : ParsedBalance)
  | txn (t : ParsedTransaction)
  deriving DecidableEq, Repr

/-- `idx !== -1 && cols[idx]` truthiness: the column exists and is nonempty;
returns the column content in that case. -/
def truthyCol (cols : List (List Char)) (idx : Option Nat) : Option (List Char) :=
  match idx with
  | some i => match cols.getD i [] with
    | [] => none
    | l => some l
  | none => none

/-- The signed amount computed for a transaction row: the signed-value column
if present and nonempty, else `credit − debit` when either split column
exists, else `0`. -/
def csvAmount (ctx : CsvCtx) (cols : List (List Char)) : Int :=
  match truthyCol cols ctx.valueIdx with
  | some v => parseAmountToCents (String.mk v)
  | none =>
    if ctx.debitIdx.isSome ∨ ctx.creditIdx.isSome then
      let debit := match truthyCol cols ctx.debitIdx with
        | some v => parseAmountToCents (String.mk v)
        | none => 0
      let credit := match truthyCol cols ctx.creditIdx with
        | some v => parseAmountToCents (String.mk v)
        | none => 0
      credit - debit
    else 0

/-- The `type` resolution: prefer an explicit type column, fall back to the
sign of the amount. -/
def csvType (ctx : CsvCtx) (cols : List (List Char)) (amountCents : Int) :
    LedgerEntryType :=
  match truthyCol cols ctx.typeIdx with
  | some v =>
    let typeVal := norm v
    if startsWithAny ["entrada", "credito", "credit"] typeVal then .income
    else if startsWithAny ["saida", "debito", "debit"] typeVal then .expense
    else entryType amountCents
  | none => entryType amountCents

/-- The body of the `parseCsv` data-row loop (current version): invalid date →
skip; "Saldo Anterior" / "Saldo do dia" → skip; the letter-spaced "S A L D O"
marker → a `ParsedBalance` from the signed-value (else credit) column with
fingerprint `date|"SALDO"|balanceCents`; otherwise a transaction candidate
(zero amount with empty description discarded as noise). -/
def csvRow (ctx : CsvCtx) (cols : List (List Char)) : RowAction :=
  match parseDate (String.mk (cols.getD ctx.dateIdx [])) with
  | none => .skip
  | some d =>
    let lancamento := cols.getD ctx.descIdx []
    if matchSaldoAnterior lancamento then .skip
    else if matchSaldoDoDia lancamento then .skip
    else if isSaldoPat lancamento then
      let balanceCents : Int :=
        match truthyCol cols ctx.valueIdx with
        | some v => parseAmountToCents (String.mk v)
        | none =>
          match truthyCol cols ctx.creditIdx with
          | some v => parseAmountToCents (String.mk v)
          | none => 0
      .bal ⟨d, balanceCents,
        computeImportHash (dateToIso d) "SALDO" balanceCents⟩
    else
      let details := match ctx.detailsIdx with
        | some i => cols.getD i []
        | none => []
      let description := lancamento
      let documentId := match ctx.docIdx with
        | some i => cols.getD i []
        | none => []
      let amountCents := csvAmount ctx cols
      if amountCents = 0 ∧ description = [] then .skip
      else
        let ty := csvType ctx cols amountCents
        RowAction.txn
          { date := d, description := String.mk description,
            details := if trimChars details ≠ [] then
                some (String.mk (trimChars details)) else none,
            documentId := if trimChars documentId ≠ [] then
                some (String.mk (trimChars documentId)) else none,
            amountCents := jsAbs amountCents, type := ty,
            importHash := computeImportHash (dateToIso d)
              (String.mk description) (jsAbs amountCents) }

/-- The `parseCsv` data-row loop over lines `1..`, preserving source order. -/
def csvLoop (ctx : CsvCtx) : List (List Char) → ParsedBankStatement
  | [] => ⟨[], []⟩
  | line :: rest =>
    let r := csvLoop ctx rest
    match csvRow ctx (splitRow ctx.delim line) with
    | .skip => r
    | .bal b => ⟨r.transactions, b :: r.balances⟩
    | .txn t => ⟨t :: r.transactions, r.balances⟩

/-- `parseCsv(text)` (current version, returning a `ParsedBankStatement`). -/
def parseCsv (text : String) : ParsedBankStatement :=
  let lines := splitLines text
  if lines.length < 2 then ⟨[], []⟩
  else
    let delim := if (lines.headD []).contains ';' then ';' else ','
    let headers := (splitRow delim (lines.headD [])).map norm
    match headers.findIdx? isDateHeader, headers.findIdx? isDescHeader with
    | some dateIdx, some descIdx =>
      let ctx : CsvCtx :=
        { delim := delim, dateIdx := dateIdx, descIdx := descIdx,
          detailsIdx := headers.findIdx? isDetailsHeader,
          docIdx := headers.findIdx? isDocHeader,
          valueIdx := headers.findIdx? isValueHeader,
          debitIdx := headers.findIdx? isDebitHeader,
          creditIdx := headers.findIdx? isCreditHeader,
          typeIdx := headers.findIdx? isTypeHeader }
      csvLoop ctx lines.tail
    | _, _ => ⟨[], []⟩

-- ── OfxExtractor ──────────────────────────────────────────────────────────────

/-- Case-insensitive match (for the `/i` regex flags; the patterns are ASCII
tag names, so ASCII lowering is the simple case folding JS applies). -/
def ciPrefix (pat s : List Char) : Bool :=
  (s.take pat.length).map jsToLower = pat

/-- Find the first case-insensitive occurrence of `pat`: returns the text
before it and the text after it. -/
def splitAtCI (pat : List Char) (s : List Char) :
    Option (List Char × List Char) :=
  if ciPrefix pat s then some ([], s.drop pat.length)
  else
    match s with
    | [] => none
    | c :: cs => (splitAtCI pat cs).map (fun p => (c :: p.1, p.2))

/-- `blockRe = /<STMTTRN>([\s\S]*?)<\/STMTTRN>/gi`: every closed block body in
order; a dangling open tag without a close yields no further blocks.  Fuel is
the remaining text length, which bounds the iteration count since every match
consumes both tags. -/
def closedBlocksGo (fuel : Nat) (s : List Char) : List (List Char) :=
  match fuel with
  | 0 => []
  | fuel' + 1 =>
    match splitAtCI "<stmttrn>".data s with
    | none => []
    | some (_, afterOpen) =>
      match splitAtCI "</stmttrn>".data afterOpen with
      | none => []
      | some (body, rest) => body :: closedBlocksGo fuel' rest

def closedBlocks (s : List Char) : List (List Char) :=
  closedBlocksGo s.length s

/-- The `(?=<STMTTRN>|<\/BANKTRANLIST>|$)` look-ahead of the SGML pass: take
text up to (not including) the first boundary. -/
def takeUntilBoundary (s : List Char) : List Char × List Char :=
  if ciPrefix "<stmttrn>".data s ∨ ciPrefix "</banktranlist>".data s then
    ([], s)
  else
    match s with
    | [] => ([], [])
    | c :: cs =>
      let p := takeUntilBoundary cs
      (c :: p.1, p.2)

/-- `sgmlRe = /<STMTTRN>([\s\S]*?)(?=<STMTTRN>|<\/BANKTRANLIST>|$)/gi`: flat
block bodies split on look-ahead boundaries; the boundary is not consumed, so
the next search resumes at it. -/
def sgmlBlocksGo (fuel : Nat) (s : List Char) : List (List Char) :=
  match fuel with
  | 0 => []
  | fuel' + 1 =>
    match splitAtCI "<stmttrn>".data s with
    | none => []
    | some (_, afterOpen) =>
      let p := takeUntilBoundary afterOpen
      p.1 :: sgmlBlocksGo fuel' p.2

def sgmlBlocks (s : List Char) : List (List Char) :=
  sgmlBlocksGo s.length s

def isAsciiLetter (c : Char) : Bool :=
  ('A' ≤ c && c ≤ 'Z') || ('a' ≤ c && c ≤ 'z')

/-- ASCII uppercase (`tag[1].toUpperCase()`; tag names are ASCII letters). -/
def toUpperAscii (c : Char) : Char :=
  if 'a' ≤ c ∧ c ≤ 'z' then Char.ofNat (c.toNat - 32) else c

/-- `tagRe = /<([A-Z]+)>([^<\n\r]*)/gi` run over a block body: every
`<TAG>value` occurrence, tag uppercased and value trimmed (the value stops at
the next `<` or line break).  On a failed match the scan advances one
character, mirroring the regex engine. -/
def extractTagsGo (fuel : Nat) (s : List Char) : List (String × String) :=
  match fuel with
  | 0 => []
  | fuel' + 1 =>
    match s with
    | [] => []
    | c :: cs =>
      if c = '<' then
        let letters := cs.takeWhile isAsciiLetter
        let rest := cs.dropWhile isAsciiLetter
        if letters ≠ [] ∧ rest.head? = some '>' then
          let rest2 := rest.tail
          let v := rest2.takeWhile
            (fun ch => ¬(ch = '<' ∨ ch = Char.ofNat 10 ∨ ch = Char.ofNat 13))
          let rest3 := rest2.dropWhile
            (fun ch => ¬(ch = '<' ∨ ch = Char.ofNat 10 ∨ ch = Char.ofNat 13))
          (String.mk (letters.map toUpperAscii), String.mk (trimChars v)) ::
            extractTagsGo fuel' rest3
        else extractTagsGo fuel' cs
      else extractTagsGo fuel' cs

def extractTags (body : List Char) : List (String × String) :=
  extractTagsGo body.length body

/-- `fields[k]`: JS object assignment overwrites, so the last occurrence of a
tag wins. -/
def lookupLast (fields : List (String × String)) (k : String) : Option String :=
  (fields.reverse.find? (fun p => p.1 = k)).map (fun p => p.2)

/-- `const date = new Date(`${year}-${month}-${day}T12:00:00`)` from the
`DTPOSTED` slices: valid only when the slices are full-width digit strings
forming a valid calendar date (the ISO rules; engine-specific lenient parses
of other component widths are not modelled). -/
def jsDateFromParts (y m d : List Char) : Option SimpleDate :=
  if y.length = 4 ∧ m.length = 2 ∧ d.length = 2 ∧ (y ++ m ++ d).all isDigitChar
      ∧ validDate (digitsToNat y) (digitsToNat m) (digitsToNat d) then
    some ⟨digitsToNat y, digitsToNat m, digitsToNat d⟩
  else none

/-- `memo.replace(/\d+\W/g, "")`: every maximal digit run that is followed by
one non-word character is removed together with that character; a digit run
followed by a word character (or end of input) stays. -/
def replDWGo (fuel : Nat) (s : List Char) : List Char :=
  match fuel with
  | 0 => s
  | fuel' + 1 =>
    match s with
    | [] => []
    | c :: cs =>
      if isDigitChar c then
        let run := c :: cs.takeWhile isDigitChar
        let rest := cs.dropWhile isDigitChar
        match rest with
        | d :: rest2 =>
          if ¬ isWordChar d then replDWGo fuel' rest2
          else run ++ replDWGo fuel' rest
        | [] => run
      else c :: replDWGo fuel' cs

def replDW (s : List Char) : List Char :=
  replDWGo s.length s

/-- `fields['TRNAMT'] ?? '0'` then `parseFloat(rawAmount.replace(',', '.'))`,
NaN → 0, `Math.round(amountFloat * 100)`. -/
def ofxAmount (fields : List (String × String)) : Int :=
  let rawAmount := (lookupLast fields "TRNAMT").getD "0"
  match jsParseFloat (replaceFirst ',' '.' rawAmount.data) with
  | none => 0
  | some v => roundTimes100 v.1 v.2

/-- What one OFX block contributes: a transaction, nothing (`continue`), or a
thrown `RangeError` (`date.toISOString()` on an invalid date), which aborts
the whole parse. -/
inductive OfxStep where
  | stepErr
  | stepSkip
  | stepTxn (t : ParsedTransaction)
  deriving DecidableEq, Repr

/-- The closed-tag (`<STMTTRN>…</STMTTRN>`) loop body: skips blocks whose
`NAME` is `"Saldo Anterior"` or `"Saldo do dia"`; the description is the
digit-stripped `MEMO` (the `memo ?? name ?? fields['FITID'] ?? ''` chain never
falls through because `memo` is never nullish). -/
def ofxBlockClosed (fields : List (String × String)) : OfxStep :=
  let name := (lookupLast fields "NAME").getD ""
  let memo := match lookupLast fields "MEMO" with
    | some m => String.mk (replDW m.data)
    | none => ""
  if name = "Saldo Anterior" ∨ name = "Saldo do dia" then .stepSkip
  else
    let dtPosted := (lookupLast fields "DTPOSTED").getD ""
    let year := dtPosted.data.take 4
    let month := (dtPosted.data.drop 4).take 2
    let day := (dtPosted.data.drop 6).take 2
    if year = [] ∨ month = [] ∨ day = [] then .stepSkip
    else
      match jsDateFromParts year month day with
      | none => .stepErr
      | some d =>
        let amountCents := ofxAmount fields
        let description := memo
        let fitid := (lookupLast fields "FITID").getD ""
        OfxStep.stepTxn
          { date := d, description := description,
            documentId := if trimChars fitid.data ≠ [] then
                some (String.mk (trimChars fitid.data)) else none,
            amountCents := jsAbs amountCents,
            type := entryType amountCents,
            importHash := computeImportHash (dateToIso d) description
              (jsAbs amountCents) }

/-- The flat-SGML loop body: skips blocks whose `NAME` is `"Saldo Anterior"`
or `"Saldo do Dia"` (note the different casing from the closed pass); the
description is the raw `fields['MEMO'] ?? fields['NAME'] ?? fields['FITID']
?? ''` chain with no digit stripping. -/
def ofxBlockSgml (fields : List (String × String)) : OfxStep :=
  let isSkipName : Bool :=
    match lookupLast fields "NAME" with
    | some n => n == "Saldo Anterior" || n == "Saldo do Dia"
    | none => false
  if isSkipName then .stepSkip
  else
    let dtPosted := (lookupLast fields "DTPOSTED").getD ""
    let year := dtPosted.data.take 4
    let month := (dtPosted.data.drop 4).take 2
    let day := (dtPosted.data.drop 6).take 2
    if year = [] ∨ month = [] ∨ day = [] then .stepSkip
    else
      match jsDateFromParts year month day with
      | none => .stepErr
      | some d =>
        let amountCents := ofxAmount fields
        let description :=
          (lookupLast fields "MEMO").getD
            ((lookupLast fields "NAME").getD
              ((lookupLast fields "FITID").getD ""))
        let fitid := (lookupLast fields "FITID").getD ""
        OfxStep.stepTxn
          { date := d, description := description,
            documentId := if trimChars fitid.data ≠ [] then
                some (String.mk (trimChars fitid.data)) else none,
            amountCents := jsAbs amountCents,
            type := entryType amountCents,
            importHash := computeImportHash (dateToIso d) description
              (jsAbs amountCents) }

/-- Run one pass's loop over its block list; `none` models the thrown
`RangeError` aborting `parseOfx`. -/
def processBlocks (builder : List (String × String) → OfxStep) :
    List (List Char) → Option (List ParsedTransaction)
  | [] => some []
  | b :: rest =>
    match builder (extractTags b) with
    | .stepErr => none
    | .stepSkip => processBlocks builder rest
    | .stepTxn t => (processBlocks builder rest).map (fun ts => t :: ts)

/-- `parseOfx(text)` (current version): closed-tag pass first; only if it
yields zero transactions, the flat-SGML pass; `none` models a thrown
exception. -/
def parseOfx (text : String) : Option ParsedBankStatement :=
  match processBlocks ofxBlockClosed (closedBlocks text.data) with
  | none => none
  | some ts =>
    if ts = [] then
      match processBlocks ofxBlockSgml (sgmlBlocks text.data) with
      | none => none
      | some ts2 => some ⟨ts2, []⟩
    else some ⟨ts, []⟩

-- ── BatchReconciler (`importLedgerEntries` in `src/firebase/firestore.ts`) ────

/-- A document of the `users/{userId}/ledgerEntries` collection, with the
fields `importLedgerEntries` writes (the `createdAt`/`updatedAt` wall-clock
timestamps are not modelled; no claim mentions them).  `importHash` is
optional because manually added entries have none. -/
structure LedgerDoc where
  userId : String
  accountId : String
  type : LedgerEntryType
  amountCents : Int
  description : String
  date : SimpleDate
  importHash : Option String
  details : Option String := none
  documentId : Option String := none
  deriving DecidableEq, Repr

/-- The `for (i = 0; i < len; i += n)` slicing into chunks of `n` (fuel is
the list length; each step with positive `n` drops at least one element). -/
def chunksOfGo (n fuel : Nat) (l : List α) : List (List α) :=
  match fuel with
  | 0 => []
  | fuel' + 1 =>
    match l with
    | [] => []
    | x :: xs =>
      if 0 < n then (x :: xs).take n :: chunksOfGo n fuel' ((x :: xs).drop n)
      else []

def chunksOf (n : Nat) (l : List α) : List (List α) :=
  chunksOfGo n l.length l

/-- The Firestore query `where('importHash', 'in', chunk)`: a document
matches when its `importHash` field holds one of the chunk's values. -/
def hashMatches (chunk : List String) (d : LedgerDoc) : Bool :=
  match d.importHash with
  | some h => chunk.contains h
  | none => false

/-- One existence-check query plus the
`snap.docs.forEach(d => if (hash) existingHashes.add(hash))` body: the hashes
of the matching documents, keeping only truthy (nonempty) ones.  The JS `Set`
is modelled as a list queried by membership. -/
def queryHashes (store : List LedgerDoc) (chunk : List String) : List String :=
  (store.filter (hashMatches chunk)).filterMap
    (fun d => d.importHash.bind (fun h => if h ≠ "" then some h else none))

/-- The chunked existence-check loop (`BATCH_SIZE = 30`), unioning each
query's results into the `existingHashes` set. -/
def collectExisting (store : List LedgerDoc) (hashChunks : List (List String)) :
    List String :=
  hashChunks.foldl (fun acc chunk => acc ++ queryHashes store chunk) []

/-- The document `batch.set(ref, entry)` writes for one parsed transaction:
`details`/`documentId` only when present and nonblank. -/
def mkLedgerDoc (userId accountId : String) (t : ParsedTransaction) :
    LedgerDoc :=
  { userId := userId, accountId := accountId, type := t.type,
    amountCents := t.amountCents, description := t.description,
    date := t.date, importHash := some t.importHash,
    details := t.details.bind
      (fun s => if trimChars s.data ≠ [] then some s else none),
    documentId := t.documentId.bind
      (fun s => if trimChars s.data ≠ [] then some s else none) }

/-- The observable outcome of one `importLedgerEntries` call: the returned
`ImportResult` counts, the collection afterwards, and how many existence-check
queries and write-batch commits were issued. -/
structure ImportOutcome where
  imported : Nat
  skipped : Nat
  store : List LedgerDoc
  queriesIssued : Nat
  batchesCommitted : Nat
  deriving DecidableEq, Repr

/-- `importLedgerEntries(userId, accountId, transactions)` against a given
state of the `ledgerEntries` collection: empty input returns immediately;
otherwise collect the candidate hashes, query for existing ones in chunks of
30, filter the candidates whose fingerprint was already stored, and append the
rest in write batches of 500 (each batch's documents in candidate order). -/
def importLedgerEntries (userId accountId : String)
    (transactions : List ParsedTransaction) (store : List LedgerDoc) :
    ImportOutcome :=
  if transactions = [] then
    { imported := 0, skipped := 0, store := store, queriesIssued := 0,
      batchesCommitted := 0 }
  else
    let allHashes := transactions.map (fun t => t.importHash)
    let hashChunks := chunksOf 30 allHashes
    let existingHashes := collectExisting store hashChunks
    let toImport := transactions.filter
      (fun t => ¬ existingHashes.contains t.importHash)
    let skipped := transactions.length - toImport.length
    let writeChunks := chunksOf 500 toImport
    let finalStore := writeChunks.foldl
      (fun st chunk => st ++ chunk.map (mkLedgerDoc userId accountId)) store
    { imported := toImport.length, skipped := skipped, store := finalStore,
      queriesIssued := hashChunks.length,
      batchesCommitted := writeChunks.length }

/-!
## Helper lemmas
-/

theorem splitRowGo_nil (delim : Char) (fuel : Nat) (current : List Char)
    (inQ : Bool) : splitRowGo delim fuel [] current inQ = [trimChars current] := by
  cases fuel <;> rfl

/-- Inside a quoted region, every character other than the double quote
(including the delimiter) is accumulated verbatim until the closing quote. -/
theorem splitRowGo_quoted (delim : Char) (s : List Char) :
    ∀ fuel acc, s.length < fuel → '"' ∉ s →
      splitRowGo delim fuel (s ++ ['"']) acc true = [trimChars (acc ++ s)] := by
  induction s with
  | nil =>
    intro fuel acc hf _
    match fuel, hf with
    | fuel' + 1, _ =>
      show splitRowGo delim (fuel' + 1) ['"'] acc true = _
      simp [splitRowGo, splitRowGo_nil]
  | cons c cs ih =>
    intro fuel acc hf hq
    match fuel, hf with
    | fuel' + 1, hf' =>
      have hc : c ≠ '"' := fun h => hq (h ▸ List.mem_cons_self c cs)
      show splitRowGo delim (fuel' + 1) (c :: (cs ++ ['"'])) acc true = _
      rw [splitRowGo]
      rw [if_neg (by simp), if_neg (by simp [hc]), if_neg (by simp)]
      rw [ih fuel' (acc ++ [c]) (by simp at hf'; omega)
        (fun h => hq (List.mem_cons_of_mem c h))]
      simp

/-- `chunksOf` with positive chunk size partitions the list: concatenating
the chunks gives the list back. -/
theorem chunksOfGo_flatten {α : Type} (n : Nat) (hn : 0 < n) :
    ∀ (fuel : Nat) (l : List α), l.length ≤ fuel →
      (chunksOfGo n fuel l).flatten = l := by
  intro fuel
  induction fuel with
  | zero =>
    intro l hl
    have : l = [] := List.length_eq_zero.mp (Nat.le_zero.mp hl)
    subst this
    rfl
  | succ f ih =>
    intro l hl
    cases l with
    | nil => rfl
    | cons x xs =>
      show (chunksOfGo n (f + 1) (x :: xs)).flatten = _
      rw [chunksOfGo, if_pos hn, List.flatten_cons]
      rw [ih ((x :: xs).drop n) (by simp at hl ⊢; omega)]
      exact List.take_append_drop n (x :: xs)

theorem chunksOf_flatten {α : Type} (n : Nat) (hn : 0 < n) (l : List α) :
    (chunksOf n l).flatten = l :=
  chunksOfGo_flatten n hn l.length l le_rfl

theorem mem_queryHashes (store : List LedgerDoc) (chunk : List String)
    (x : String) :
    x ∈ queryHashes store chunk ↔
      ∃ d ∈ store, d.importHash = some x ∧ x ≠ "" ∧ x ∈ chunk := by
  constructor
  · intro hx
    obtain ⟨d, hd, hbind⟩ := List.mem_filterMap.mp hx
    obtain ⟨hds, hmatch⟩ := List.mem_filter.mp hd
    cases hih : d.importHash with
    | none => simp [hih] at hbind
    | some h =>
      rw [hih] at hbind
      simp only [Option.some_bind] at hbind
      split at hbind
      · rw [Option.some_inj] at hbind
        subst hbind
        refine ⟨d, hds, hih, by assumption, ?_⟩
        have : chunk.contains h = true := by
          simpa [hashMatches, hih] using hmatch
        exact List.elem_iff.mp this
      · exact absurd hbind (by simp)
  · rintro ⟨d, hds, hih, hne, hmem⟩
    refine List.mem_filterMap.mpr ⟨d, List.mem_filter.mpr ⟨hds, ?_⟩, ?_⟩
    · simp only [hashMatches, hih]
      exact List.elem_iff.mpr hmem
    · simp [hih, hne]

theorem mem_collectExisting (store : List LedgerDoc)
    (chunks : List (List String)) (x : String) :
    x ∈ collectExisting store chunks ↔
      ∃ c ∈ chunks, x ∈ queryHashes store c := by
  have general : ∀ (cs : List (List String)) (acc : List String),
      (x ∈ cs.foldl (fun a c => a ++ queryHashes store c) acc ↔
        x ∈ acc ∨ ∃ c ∈ cs, x ∈ queryHashes store c) := by
    intro cs
    induction cs with
    | nil => simp
    | cons c rest ih =>
      intro acc
      rw [List.foldl_cons, ih]
      simp only [List.mem_append, List.mem_cons]
      constructor
      · rintro (⟨h | h⟩ | ⟨c2, hc2, hx⟩)
        · exact Or.inl h
        · exact Or.inr ⟨c, Or.inl rfl, h⟩
        · exact Or.inr ⟨c2, Or.inr hc2, hx⟩
      · rintro (h | ⟨c2, (rfl | hc2), hx⟩)
        · exact Or.inl (Or.inl h)
        · exact Or.inl (Or.inr hx)
        · exact Or.inr ⟨c2, hc2, hx⟩
  simpa using general chunks []

theorem foldl_writeChunks (u a : String) :
    ∀ (chunks : List (List ParsedTransaction)) (init : List LedgerDoc),
      chunks.foldl (fun st c => st ++ c.map (mkLedgerDoc u a)) init =
        init ++ chunks.flatten.map (mkLedgerDoc u a) := by
  intro chunks
  induction chunks with
  | nil => simp
  | cons c rest ih =>
    intro init
    rw [List.foldl_cons, ih, List.flatten_cons]
    simp

theorem jsAbs_nonneg (a : Int) : 0 ≤ jsAbs a := by
  unfold jsAbs
  split <;> omega

theorem entryType_cases (a : Int) :
    entryType a = .income ∨ entryType a = .expense := by
  unfold entryType
  split <;> simp

theorem csvType_cases (ctx : CsvCtx) (cols : List (List Char)) (a : Int) :
    csvType ctx cols a = .income ∨ csvType ctx cols a = .expense := by
  cases htc : truthyCol cols ctx.typeIdx with
  | none =>
    simp only [csvType, htc]
    exact entryType_cases a
  | some v =>
    simp only [csvType, htc]
    split
    · simp
    · split
      · simp
      · exact entryType_cases a

/-- Every transaction `csvRow` emits carries a nonnegative amount and an
income/expense type. -/
theorem csvRow_txn_good (ctx : CsvCtx) (cols : List (List Char))
    (t : ParsedTransaction) (h : csvRow ctx cols = RowAction.txn t) :
    0 ≤ t.amountCents ∧ (t.type = .income ∨ t.type = .expense) := by
  simp only [csvRow] at h
  split at h
  · exact absurd h (by simp)
  cases h1 : matchSaldoAnterior (cols.getD ctx.descIdx []) with
  | true => rw [if_pos h1] at h; exact absurd h (by simp)
  | false =>
  rw [if_neg (by simp only [h1]; exact Bool.false_ne_true)] at h
  cases h2 : matchSaldoDoDia (cols.getD ctx.descIdx []) with
  | true => rw [if_pos h2] at h; exact absurd h (by simp)
  | false =>
  rw [if_neg (by simp only [h2]; exact Bool.false_ne_true)] at h
  cases h3 : isSaldoPat (cols.getD ctx.descIdx []) with
  | true => rw [if_pos h3] at h; exact absurd h (by simp)
  | false =>
  rw [if_neg (by simp only [h3]; exact Bool.false_ne_true)] at h
  split at h
  · exact absurd h (by simp)
  · rw [RowAction.txn.injEq] at h
    subst h
    exact ⟨jsAbs_nonneg _, csvType_cases _ _ _⟩

theorem csvLoop_good (ctx : CsvCtx) :
    ∀ (lines : List (List Char)) (t : ParsedTransaction),
      t ∈ (csvLoop ctx lines).transactions →
      0 ≤ t.amountCents ∧ (t.type = .income ∨ t.type = .expense) := by
  intro lines
  induction lines with
  | nil => intro t ht; simp [csvLoop] at ht
  | cons l rest ih =>
    intro t ht
    rw [csvLoop] at ht
    cases hrow : csvRow ctx (splitRow ctx.delim l) with
    | skip => rw [hrow] at ht; exact ih t ht
    | bal b => rw [hrow] at ht; exact ih t ht
    | txn t2 =>
      rw [hrow] at ht
      rcases List.mem_cons.mp ht with heq | hmem
      · subst heq; exact csvRow_txn_good ctx _ t hrow
      · exact ih t hmem

theorem parseCsv_good (text : String) :
    ∀ t ∈ (parseCsv text).transactions,
      0 ≤ t.amountCents ∧ (t.type = .income ∨ t.type = .expense) := by
  intro t ht
  simp only [parseCsv] at ht
  split at ht
  · simp at ht
  · split at ht
    · exact csvLoop_good _ _ t ht
    · simp at ht

theorem ofxBlockClosed_good (fields : List (String × String))
    (t : ParsedTransaction) (h : ofxBlockClosed fields = OfxStep.stepTxn t) :
    0 ≤ t.amountCents ∧ (t.type = .income ∨ t.type = .expense) := by
  simp only [ofxBlockClosed] at h
  repeat' split at h
  all_goals
    try (rw [OfxStep.stepTxn.injEq] at h; subst h
         exact ⟨jsAbs_nonneg _, entryType_cases _⟩)
  all_goals simp at h

theorem ofxBlockSgml_good (fields : List (String × String))
    (t : ParsedTransaction) (h : ofxBlockSgml fields = OfxStep.stepTxn t) :
    0 ≤ t.amountCents ∧ (t.type = .income ∨ t.type = .expense) := by
  simp only [ofxBlockSgml] at h
  repeat' split at h
  all_goals
    try (rw [OfxStep.stepTxn.injEq] at h; subst h
         exact ⟨jsAbs_nonneg _, entryType_cases _⟩)
  all_goals simp at h

theorem processBlocks_good (builder : List (String × String) → OfxStep)
    (hb : ∀ fields t, builder fields = OfxStep.stepTxn t →
      0 ≤ t.amountCents ∧ (t.type = .income ∨ t.type = .expense)) :
    ∀ (bs : List (List Char)) (ts : List ParsedTransaction),
      processBlocks builder bs = some ts →
      ∀ t ∈ ts, 0 ≤ t.amountCents ∧ (t.type = .income ∨ t.type = .expense) := by
  intro bs
  induction bs with
  | nil =>
    intro ts h t ht
    rw [processBlocks] at h
    rw [Option.some_inj] at h
    subst h
    simp at ht
  | cons b rest ih =>
    intro ts h t ht
    rw [processBlocks] at h
    split at h
    · exact absurd h (by simp)
    · exact ih ts h t ht
    · rename_i t2 hb2
      obtain ⟨ts2, hts2, rfl⟩ := Option.map_eq_some'.mp h
      rcases List.mem_cons.mp ht with heq | hmem
      · subst heq; exact hb _ t hb2
      · exact ih ts2 hts2 t hmem

theorem hexDigit_mod_hex (m : Nat) : isHexLowerChar (hexDigit (m % 16)) = true := by
  have h : m % 16 < 16 := Nat.mod_lt _ (by norm_num)
  set k := m % 16 with hk
  interval_cases k <;> decide

theorem toHex8_length (n : Nat) : (toHex8 n).length = 8 := rfl

theorem toHex8_hex (n : Nat) : ∀ c ∈ (toHex8 n).data, isHexLowerChar c := by
  intro c hc
  have hdata : (toHex8 n).data =
      [hexDigit (n / 16 ^ 7 % 16), hexDigit (n / 16 ^ 6 % 16),
        hexDigit (n / 16 ^ 5 % 16), hexDigit (n / 16 ^ 4 % 16),
        hexDigit (n / 16 ^ 3 % 16), hexDigit (n / 16 ^ 2 % 16),
        hexDigit (n / 16 ^ 1 % 16), hexDigit (n % 16)] := rfl
  rw [hdata] at hc
  simp only [List.mem_cons, List.not_mem_nil, or_false] at hc
  rcases hc with rfl | rfl | rfl | rfl | rfl | rfl | rfl | rfl <;>
    exact hexDigit_mod_hex _

/-- An import where no candidate fingerprint is already stored imports every
candidate (including in-file duplicates) and appends the corresponding
documents in order. -/
theorem importLedgerEntries_fresh (u a : String)
    (ts : List ParsedTransaction) (store : List LedgerDoc)
    (hnew : ∀ t ∈ ts, ∀ d ∈ store, d.importHash ≠ some t.importHash) :
    importLedgerEntries u a ts store =
      { imported := ts.length, skipped := 0,
        store := store ++ ts.map (mkLedgerDoc u a),
        queriesIssued := (chunksOf 30 (ts.map (fun t => t.importHash))).length,
        batchesCommitted := (chunksOf 500 ts).length } := by
  by_cases hts : ts = []
  · subst hts
    simp [importLedgerEntries, chunksOf, chunksOfGo]
  · simp only [importLedgerEntries, if_neg hts]
    have hfilter : ts.filter (fun t =>
        ¬ (collectExisting store
            (chunksOf 30 (ts.map (fun t => t.importHash)))).contains
          t.importHash) = ts := by
      apply List.filter_eq_self.mpr
      intro t ht
      suffices hmem : t.importHash ∉ collectExisting store
          (chunksOf 30 (ts.map (fun t => t.importHash))) by
        simpa [List.elem_iff] using hmem
      intro hmem
      obtain ⟨c, _, hq⟩ := (mem_collectExisting _ _ _).mp hmem
      obtain ⟨dd, hds, hih, _, _⟩ := (mem_queryHashes _ _ _).mp hq
      exact hnew t ht dd hds hih
    rw [hfilter, foldl_writeChunks, chunksOf_flatten 500 (by norm_num)]
    simp

/-- An import where every candidate fingerprint is already stored imports
nothing and leaves the collection unchanged. -/
theorem importLedgerEntries_all_existing (u a : String)
    (ts : List ParsedTransaction) (store : List LedgerDoc)
    (hne : ∀ t ∈ ts, t.importHash ≠ "")
    (hstored : ∀ t ∈ ts, ∃ d ∈ store, d.importHash = some t.importHash) :
    importLedgerEntries u a ts store =
      { imported := 0, skipped := ts.length, store := store,
        queriesIssued := (chunksOf 30 (ts.map (fun t => t.importHash))).length,
        batchesCommitted := 0 } := by
  by_cases hts : ts = []
  · subst hts
    simp [importLedgerEntries, chunksOf, chunksOfGo]
  · simp only [importLedgerEntries, if_neg hts]
    have hfilter : ts.filter (fun t =>
        ¬ (collectExisting store
            (chunksOf 30 (ts.map (fun t => t.importHash)))).contains
          t.importHash) = [] := by
      apply List.filter_eq_nil_iff.mpr
      intro t ht
      have hhash : t.importHash ∈ ts.map (fun t => t.importHash) :=
        List.mem_map_of_mem _ ht
      rw [← chunksOf_flatten 30 (by norm_num)
        (ts.map (fun t => t.importHash))] at hhash
      obtain ⟨c, hc, hmemc⟩ := List.mem_flatten.mp hhash
      obtain ⟨d, hds, hih⟩ := hstored t ht
      have hq : t.importHash ∈ queryHashes store c :=
        (mem_queryHashes _ _ _).mpr ⟨d, hds, hih, hne t ht, hmemc⟩
      have hcoll : t.importHash ∈ collectExisting store
          (chunksOf 30 (ts.map (fun t => t.importHash))) :=
        (mem_collectExisting _ _ _).mpr ⟨c, hc, hq⟩
      simp [List.elem_iff, hcoll]
    rw [hfilter]
    simp [chunksOf, chunksOfGo, Nat.sub_zero]

theorem parseOfx_good (text : String) (st : ParsedBankStatement)
    (h : parseOfx text = some st) :
    ∀ t ∈ st.transactions,
      0 ≤ t.amountCents ∧ (t.type = .income ∨ t.type = .expense) := by
  unfold parseOfx at h
  split at h
  · exact absurd h (by simp)
  · rename_i ts hts
    split at h
    · split at h
      · exact absurd h (by simp)
      · rename_i ts2 hts2
        rw [Option.some_inj] at h
        subst h
        exact processBlocks_good ofxBlockSgml
          (fun f t => ofxBlockSgml_good f t) _ ts2 hts2
    · rw [Option.some_inj] at h
      subst h
      exact processBlocks_good ofxBlockClosed
        (fun f t => ofxBlockClosed_good f t) _ ts hts

/-!
## Claim theorems
-/

/-- C9: `importLedgerEntries` called with an empty transaction list returns
`{imported: 0, skipped: 0}` immediately, issues no existence-check query and
no write batch, and leaves the store unchanged. -/
theorem importLedgerEntries_empty_is_noop (u a : String)
    (store : List LedgerDoc) :
    importLedgerEntries u a [] store =
      { imported := 0, skipped := 0, store := store, queriesIssued := 0,
        batchesCommitted := 0 } := by
  simp [importLedgerEntries]

/-- C6: a CSV data row whose date field is the placeholder `"00/00/0000"`
(day or month `00`) or the invalid calendar date `"31/02/2024"` yields no
transaction: the date parser returns no date and the row is silently
discarded, not escalated as an error. -/
theorem invalid_dates_discarded_silently :
    parseDate "00/00/0000" = none ∧ parseDate "31/02/2024" = none ∧
    parseCsv
        "Data;Historico;Valor\n00/00/0000;Compra A;10,00\n31/02/2024;Compra B;20,00" =
      { transactions := [], balances := [] } :=
  ⟨by decide, by decide, by decide⟩

/-- C3: `computeImportHash` is a pure function — identical inputs yield the
identical output — and the output is always exactly 16 lowercase hexadecimal
characters. -/
theorem computeImportHash_pure_16_hex (date desc : String) (amt : Int)
    (date2 desc2 : String) (amt2 : Int)
    (hd : date = date2) (hs : desc = desc2) (ha : amt = amt2) :
    computeImportHash date desc amt = computeImportHash date2 desc2 amt2 ∧
    (computeImportHash date desc amt).length = 16 ∧
    ∀ c ∈ (computeImportHash date desc amt).data, isHexLowerChar c := by
  subst hd; subst hs; subst ha
  refine ⟨rfl, ?_, ?_⟩
  · show (toHex8 _ ++ toHex8 _).length = 16
    rw [String.length_append, toHex8_length, toHex8_length]
  · intro c hc
    have hc2 : c ∈ (toHex8 (hashFinalize (hashLoop
        (((date ++ "|" ++ desc ++ "|" ++ toString amt)).data.map
          Char.toNat))).2).data ++
        (toHex8 (hashFinalize (hashLoop
        (((date ++ "|" ++ desc ++ "|" ++ toString amt)).data.map
          Char.toNat))).1).data := by
      rw [← String.data_append]
      exact hc
    rcases List.mem_append.mp hc2 with h | h
    · exact toHex8_hex _ c h
    · exact toHex8_hex _ c h

/-- Witness for C3 at a concrete input. -/
theorem computeImportHash_pure_16_hex_witness :
    computeImportHash "2024-03-01" "Supermercado" 15000 =
      computeImportHash "2024-03-01" "Supermercado" 15000 ∧
    (computeImportHash "2024-03-01" "Supermercado" 15000).length = 16 ∧
    ∀ c ∈ (computeImportHash "2024-03-01" "Supermercado" 15000).data,
      isHexLowerChar c :=
  computeImportHash_pure_16_hex "2024-03-01" "Supermercado" 15000
    "2024-03-01" "Supermercado" 15000 rfl rfl rfl

/-- C5: a delimiter inside a quoted field does not split the field (the whole
quoted run is one field), a doubled double quote inside a quoted field is an
escaped literal quote, and in a comma-delimited file the field `"1.112,00"`
parses as one field yielding 111200 cents. -/
theorem splitRow_quoting (s : List Char) (hq : '"' ∉ s) :
    splitRow ',' ('"' :: s ++ ['"']) = [trimChars s] ∧
    splitRow ',' "\"he said \"\"hi\"\"\",x".data =
      ["he said \"hi\"".data, "x".data] ∧
    parseAmountToCents "1.112,00" = 111200 ∧
    (parseCsv "Data,Historico,Valor\n01/03/2024,Compra,\"1.112,00\"").transactions.map
      (fun t => t.amountCents) = [111200] := by
  refine ⟨?_, by decide, by decide, by decide⟩
  show splitRowGo ',' (('"' :: s ++ ['"']).length) ('"' :: (s ++ ['"'])) []
    false = _
  have hlen : ('"' :: s ++ ['"']).length = s.length + 1 + 1 := by simp
  rw [hlen, splitRowGo]
  rw [if_pos ⟨Or.inl rfl, by simp⟩]
  rw [splitRowGo_quoted ',' s (s.length + 1) [] (Nat.lt_succ_self _) hq]
  simp

/-- Witness for C5 at the concrete field content `1.112,00`. -/
theorem splitRow_quoting_witness :
    '"' ∉ "1.112,00".data ∧
    splitRow ',' ('"' :: "1.112,00".data ++ ['"']) =
      [trimChars "1.112,00".data] :=
  ⟨by decide, (splitRow_quoting "1.112,00".data (by decide)).1⟩

/-- C4: every transaction emitted by `parseCsv` and by `parseOfx` has a
nonnegative `amountCents` and a `type` that is exactly `income` or `expense`;
the sign of the movement lives only in `type`. -/
theorem parsed_amounts_nonneg_type_binary (text : String) :
    (∀ t ∈ (parseCsv text).transactions,
      0 ≤ t.amountCents ∧ (t.type = .income ∨ t.type = .expense)) ∧
    (∀ st, parseOfx text = some st → ∀ t ∈ st.transactions,
      0 ≤ t.amountCents ∧ (t.type = .income ∨ t.type = .expense)) :=
  ⟨parseCsv_good text, fun st h => parseOfx_good text st h⟩

/-- Witness for C4 on concrete CSV and OFX files (the OFX parse succeeds and
is nonempty, so the hypothesis of the second part is dischargeable). -/
theorem parsed_amounts_nonneg_type_binary_witness :
    (parseOfx "<OFX><BANKTRANLIST><STMTTRN>\n<DTPOSTED>20240301\n<TRNAMT>-10.00\n<MEMO>PIX LOJA\n</STMTTRN>\n</BANKTRANLIST></OFX>").isSome = true ∧
    (∀ st, parseOfx "<OFX><BANKTRANLIST><STMTTRN>\n<DTPOSTED>20240301\n<TRNAMT>-10.00\n<MEMO>PIX LOJA\n</STMTTRN>\n</BANKTRANLIST></OFX>" = some st →
      ∀ t ∈ st.transactions,
        0 ≤ t.amountCents ∧ (t.type = .income ∨ t.type = .expense)) ∧
    (∀ t ∈ (parseCsv "Data;Historico;Valor\n01/03/2024;Supermercado;-150,00").transactions,
      0 ≤ t.amountCents ∧ (t.type = .income ∨ t.type = .expense)) :=
  ⟨by decide,
    (parsed_amounts_nonneg_type_binary
      "<OFX><BANKTRANLIST><STMTTRN>\n<DTPOSTED>20240301\n<TRNAMT>-10.00\n<MEMO>PIX LOJA\n</STMTTRN>\n</BANKTRANLIST></OFX>").2,
    (parsed_amounts_nonneg_type_binary
      "Data;Historico;Valor\n01/03/2024;Supermercado;-150,00").1⟩

/-- C8: a CSV row whose description matches the letter-spaced "S A L D O"
pattern is emitted as a `ParsedBalance` (value from the signed-amount column
when present, fingerprint `date|"SALDO"|balanceCents`) and not as a
transaction, while a "Saldo Anterior" row produces neither a transaction nor
a balance. -/
theorem csv_saldo_balance_rows (ctx : CsvCtx) (cols cols2 : List (List Char))
    (d d2 : SimpleDate) (vi : Nat)
    (hd : parseDate (String.mk (cols.getD ctx.dateIdx [])) = some d)
    (hsa : matchSaldoAnterior (cols.getD ctx.descIdx []) = false)
    (hsd : matchSaldoDoDia (cols.getD ctx.descIdx []) = false)
    (hsal : isSaldoPat (cols.getD ctx.descIdx []) = true)
    (hvi : ctx.valueIdx = some vi) (hv : cols.getD vi [] ≠ [])
    (hd2 : parseDate (String.mk (cols2.getD ctx.dateIdx [])) = some d2)
    (hsa2 : matchSaldoAnterior (cols2.getD ctx.descIdx []) = true) :
    csvRow ctx cols = RowAction.bal
      { date := d,
        balanceCents := parseAmountToCents (String.mk (cols.getD vi [])),
        importHash := computeImportHash (dateToIso d) "SALDO"
          (parseAmountToCents (String.mk (cols.getD vi []))) } ∧
    csvRow ctx cols2 = RowAction.skip ∧
    parseCsv
        "Data;Lancamento;Valor\n01/03/2024;S A L D O;1.234,56\n02/03/2024;Saldo Anterior;1,00" =
      { transactions := [],
        balances := [⟨⟨2024, 3, 1⟩, 123456,
          computeImportHash "2024-03-01" "SALDO" 123456⟩] } := by
  refine ⟨?_, ?_, by decide⟩
  · simp only [csvRow, hd]
    rw [if_neg (by simp only [hsa]; exact Bool.false_ne_true)]
    rw [if_neg (by simp only [hsd]; exact Bool.false_ne_true)]
    rw [if_pos hsal]
    have htc : truthyCol cols ctx.valueIdx = some (cols.getD vi []) := by
      rw [hvi, truthyCol]
      cases hcv : cols.getD vi [] with
      | nil => exact absurd hcv hv
      | cons c cs => rfl
    simp only [htc]
  · simp only [csvRow, hd2]
    rw [if_pos hsa2]

/-- Witness for C8 on a concrete Banco-do-Brasil-style context. -/
theorem csv_saldo_balance_rows_witness :
    csvRow ⟨';', 0, 1, none, none, some 2, none, none, none⟩
        ["01/03/2024".data, "S A L D O".data, "1.234,56".data] =
      RowAction.bal
        { date := ⟨2024, 3, 1⟩,
          balanceCents := parseAmountToCents (String.mk "1.234,56".data),
          importHash := computeImportHash (dateToIso ⟨2024, 3, 1⟩) "SALDO"
            (parseAmountToCents (String.mk "1.234,56".data)) } ∧
    csvRow ⟨';', 0, 1, none, none, some 2, none, none, none⟩
        ["02/03/2024".data, "Saldo Anterior".data, "1,00".data] =
      RowAction.skip ∧
    parseCsv
        "Data;Lancamento;Valor\n01/03/2024;S A L D O;1.234,56\n02/03/2024;Saldo Anterior;1,00" =
      { transactions := [],
        balances := [⟨⟨2024, 3, 1⟩, 123456,
          computeImportHash "2024-03-01" "SALDO" 123456⟩] } :=
  csv_saldo_balance_rows ⟨';', 0, 1, none, none, some 2, none, none, none⟩
    ["01/03/2024".data, "S A L D O".data, "1.234,56".data]
    ["02/03/2024".data, "Saldo Anterior".data, "1,00".data]
    ⟨2024, 3, 1⟩ ⟨2024, 3, 2⟩ 2 (by decide) (by decide) (by decide) (by decide)
    rfl (by decide) (by decide) (by decide)

/-- C1 counterexample: two distinct list entries with the same fingerprint,
not previously stored, are BOTH persisted — `importLedgerEntries` reports
`imported = 2` and the resulting store holds two records with that
fingerprint, so in-file duplicates are not deduplicated. -/
theorem import_infile_duplicate_counterexample :
    (importLedgerEntries "u" "a"
        [{ date := ⟨2024, 3, 1⟩, description := "PIX", amountCents := 100,
           type := .income, importHash := "aaaaaaaaaaaaaaaa" },
         { date := ⟨2024, 3, 1⟩, description := "PIX", amountCents := 100,
           type := .income, importHash := "aaaaaaaaaaaaaaaa" }] []).imported
      = 2 ∧
    ((importLedgerEntries "u" "a"
        [{ date := ⟨2024, 3, 1⟩, description := "PIX", amountCents := 100,
           type := .income, importHash := "aaaaaaaaaaaaaaaa" },
         { date := ⟨2024, 3, 1⟩, description := "PIX", amountCents := 100,
           type := .income, importHash := "aaaaaaaaaaaaaaaa" }] []).store.filter
      (fun d => d.importHash == some "aaaaaaaaaaaaaaaa")).length = 2 :=
  ⟨by decide, by decide⟩

/-- C1 amended: deduplication is computed against the set of previously
STORED fingerprints before any writes begin; a candidate whose fingerprint is
not among the stored ones is imported even when another candidate in the same
call shares its fingerprint — duplicates within the same file are NOT caught,
and both records are persisted. -/
theorem import_dedup_against_store_only (u a : String)
    (t1 t2 : ParsedTransaction) (store : List LedgerDoc)
    (hsame : t2.importHash = t1.importHash)
    (hnew : ∀ d ∈ store, d.importHash ≠ some t1.importHash) :
    (importLedgerEntries u a [t1, t2] store).imported = 2 ∧
    (importLedgerEntries u a [t1, t2] store).skipped = 0 ∧
    (importLedgerEntries u a [t1, t2] store).store =
      store ++ [mkLedgerDoc u a t1, mkLedgerDoc u a t2] := by
  have hnew2 : ∀ t ∈ [t1, t2], ∀ d ∈ store,
      d.importHash ≠ some t.importHash := by
    intro t ht d hd
    rcases List.mem_cons.mp ht with rfl | ht2
    · exact hnew d hd
    · rcases List.mem_cons.mp ht2 with rfl | h3
      · rw [hsame]; exact hnew d hd
      · simp at h3
  rw [importLedgerEntries_fresh u a [t1, t2] store hnew2]
  exact ⟨rfl, rfl, rfl⟩

/-- Witness for the amended C1 on concrete duplicated candidates. -/
theorem import_dedup_against_store_only_witness :
    (importLedgerEntries "u" "a"
        [{ date := ⟨2024, 3, 1⟩, description := "PIX", amountCents := 100,
           type := .income, importHash := "bbbbbbbbbbbbbbbb" },
         { date := ⟨2024, 3, 1⟩, description := "PIX", amountCents := 100,
           type := .income, importHash := "bbbbbbbbbbbbbbbb" }] []).imported
      = 2 ∧
    (importLedgerEntries "u" "a"
        [{ date := ⟨2024, 3, 1⟩, description := "PIX", amountCents := 100,
           type := .income, importHash := "bbbbbbbbbbbbbbbb" },
         { date := ⟨2024, 3, 1⟩, description := "PIX", amountCents := 100,
           type := .income, importHash := "bbbbbbbbbbbbbbbb" }] []).skipped
      = 0 ∧
    (importLedgerEntries "u" "a"
        [{ date := ⟨2024, 3, 1⟩, description := "PIX", amountCents := 100,
           type := .income, importHash := "bbbbbbbbbbbbbbbb" },
         { date := ⟨2024, 3, 1⟩, description := "PIX", amountCents := 100,
           type := .income, importHash := "bbbbbbbbbbbbbbbb" }] []).store =
      [] ++ [mkLedgerDoc "u" "a"
          { date := ⟨2024, 3, 1⟩, description := "PIX", amountCents := 100,
            type := .income, importHash := "bbbbbbbbbbbbbbbb" },
        mkLedgerDoc "u" "a"
          { date := ⟨2024, 3, 1⟩, description := "PIX", amountCents := 100,
            type := .income, importHash := "bbbbbbbbbbbbbbbb" }] :=
  import_dedup_against_store_only "u" "a" _ _ [] rfl (by simp)

/-- C2: importing N candidates with pairwise-distinct fingerprints (none of
them already stored, all nonempty as every parsed fingerprint is) yields
`imported = N, skipped = 0`; importing the same list again against the
resulting store yields `imported = 0, skipped = N` and leaves the store
unchanged. -/
theorem import_idempotent (u a : String) (ts : List ParsedTransaction)
    (store : List LedgerDoc)
    (_hnodup : (ts.map (fun t => t.importHash)).Nodup)
    (hhash : ∀ t ∈ ts, t.importHash ≠ "")
    (hnew : ∀ t ∈ ts, ∀ d ∈ store, d.importHash ≠ some t.importHash) :
    (importLedgerEntries u a ts store).imported = ts.length ∧
    (importLedgerEntries u a ts store).skipped = 0 ∧
    (importLedgerEntries u a ts
        (importLedgerEntries u a ts store).store).imported = 0 ∧
    (importLedgerEntries u a ts
        (importLedgerEntries u a ts store).store).skipped = ts.length ∧
    (importLedgerEntries u a ts
        (importLedgerEntries u a ts store).store).store =
      (importLedgerEntries u a ts store).store := by
  have h1 := importLedgerEntries_fresh u a ts store hnew
  have hstored : ∀ t ∈ ts, ∃ d ∈ (importLedgerEntries u a ts store).store,
      d.importHash = some t.importHash := by
    intro t ht
    refine ⟨mkLedgerDoc u a t, ?_, rfl⟩
    rw [h1]
    exact List.mem_append_right _ (List.mem_map_of_mem _ ht)
  have h2 := importLedgerEntries_all_existing u a ts
    (importLedgerEntries u a ts store).store hhash hstored
  rw [h2, h1]
  exact ⟨rfl, rfl, rfl, rfl, rfl⟩

/-- Witness for C2 on two concrete distinct candidates against an empty
store. -/
theorem import_idempotent_witness :
    (importLedgerEntries "u" "a"
        [{ date := ⟨2024, 3, 1⟩, description := "A", amountCents := 100,
           type := .income, importHash := "cccccccccccccccc" },
         { date := ⟨2024, 3, 2⟩, description := "B", amountCents := 200,
           type := .expense, importHash := "dddddddddddddddd" }] []).imported
      = 2 ∧
    (importLedgerEntries "u" "a"
        [{ date := ⟨2024, 3, 1⟩, description := "A", amountCents := 100,
           type := .income, importHash := "cccccccccccccccc" },
         { date := ⟨2024, 3, 2⟩, description := "B", amountCents := 200,
           type := .expense, importHash := "dddddddddddddddd" }] []).skipped
      = 0 ∧
    (importLedgerEntries "u" "a"
        [{ date := ⟨2024, 3, 1⟩, description := "A", amountCents := 100,
           type := .income, importHash := "cccccccccccccccc" },
         { date := ⟨2024, 3, 2⟩, description := "B", amountCents := 200,
           type := .expense, importHash := "dddddddddddddddd" }]
        (importLedgerEntries "u" "a"
          [{ date := ⟨2024, 3, 1⟩, description := "A", amountCents := 100,
             type := .income, importHash := "cccccccccccccccc" },
           { date := ⟨2024, 3, 2⟩, description := "B", amountCents := 200,
             type := .expense, importHash := "dddddddddddddddd" }]
          []).store).imported = 0 ∧
    (importLedgerEntries "u" "a"
        [{ date := ⟨2024, 3, 1⟩, description := "A", amountCents := 100,
           type := .income, importHash := "cccccccccccccccc" },
         { date := ⟨2024, 3, 2⟩, description := "B", amountCents := 200,
           type := .expense, importHash := "dddddddddddddddd" }]
        (importLedgerEntries "u" "a"
          [{ date := ⟨2024, 3, 1⟩, description := "A", amountCents := 100,
             type := .income, importHash := "cccccccccccccccc" },
           { date := ⟨2024, 3, 2⟩, description := "B", amountCents := 200,
             type := .expense, importHash := "dddddddddddddddd" }]
          []).store).skipped = 2 ∧
    (importLedgerEntries "u" "a"
        [{ date := ⟨2024, 3, 1⟩, description := "A", amountCents := 100,
           type := .income, importHash := "cccccccccccccccc" },
         { date := ⟨2024, 3, 2⟩, description := "B", amountCents := 200,
           type := .expense, importHash := "dddddddddddddddd" }]
        (importLedgerEntries "u" "a"
          [{ date := ⟨2024, 3, 1⟩, description := "A", amountCents := 100,
             type := .income, importHash := "cccccccccccccccc" },
           { date := ⟨2024, 3, 2⟩, description := "B", amountCents := 200,
             type := .expense, importHash := "dddddddddddddddd" }]
          []).store).store =
      (importLedgerEntries "u" "a"
        [{ date := ⟨2024, 3, 1⟩, description := "A", amountCents := 100,
           type := .income, importHash := "cccccccccccccccc" },
         { date := ⟨2024, 3, 2⟩, description := "B", amountCents := 200,
           type := .expense, importHash := "dddddddddddddddd" }] []).store :=
  import_idempotent "u" "a"
    [{ date := ⟨2024, 3, 1⟩, description := "A", amountCents := 100,
       type := .income, importHash := "cccccccccccccccc" },
     { date := ⟨2024, 3, 2⟩, description := "B", amountCents := 200,
       type := .expense, importHash := "dddddddddddddddd" }] []
    (by decide) (by decide) (by simp)

/-- C7 counterexample: the two OFX dialect passes do NOT apply identical
field extraction.  On the same `STMTTRN` field content
(`DTPOSTED 20240301`, `TRNAMT -10.00`, `MEMO PIX 12 A`) the closed-tag file
yields description `"PIX A"` (digit-run stripping applied to MEMO) while the
flat SGML file yields `"PIX 12 A"` (raw MEMO), so the parsed transactions
differ. -/
theorem parseOfx_dialects_differ :
    (parseOfx
        "<OFX><BANKTRANLIST><STMTTRN>\n<DTPOSTED>20240301\n<TRNAMT>-10.00\n<MEMO>PIX 12 A\n</STMTTRN>\n</BANKTRANLIST></OFX>").map
      (fun st => st.transactions.map (fun t => t.description)) =
      some ["PIX A"] ∧
    (parseOfx
        "<OFX><BANKTRANLIST><STMTTRN>\n<DTPOSTED>20240301\n<TRNAMT>-10.00\n<MEMO>PIX 12 A\n</BANKTRANLIST></OFX>").map
      (fun st => st.transactions.map (fun t => t.description)) =
      some ["PIX 12 A"] ∧
    parseOfx
        "<OFX><BANKTRANLIST><STMTTRN>\n<DTPOSTED>20240301\n<TRNAMT>-10.00\n<MEMO>PIX 12 A\n</STMTTRN>\n</BANKTRANLIST></OFX>" ≠
      parseOfx
        "<OFX><BANKTRANLIST><STMTTRN>\n<DTPOSTED>20240301\n<TRNAMT>-10.00\n<MEMO>PIX 12 A\n</BANKTRANLIST></OFX>" :=
  ⟨by decide, by decide, by decide⟩

/-- C7 amended: the SGML pass runs only when the closed-tag pass yields zero
transactions, and the two passes apply the same date and amount handling but
NOT identical description extraction and filtering: the closed pass uses only
the digit-stripped MEMO (never falling back to NAME or FITID) and skips NAME
`"Saldo do dia"`, while the SGML pass uses raw MEMO with NAME/FITID fallback
and skips NAME `"Saldo do Dia"`.  For a block whose MEMO is present and
unchanged by digit stripping and whose NAME is none of the skip labels, both
passes produce the same transaction, so the two dialects agree on such
content. -/
theorem parseOfx_dialect_agreement (fields : List (String × String))
    (m : String)
    (hm : lookupLast fields "MEMO" = some m)
    (hstrip : replDW m.data = m.data)
    (hname : ∀ n, lookupLast fields "NAME" = some n →
      n ≠ "Saldo Anterior" ∧ n ≠ "Saldo do dia" ∧ n ≠ "Saldo do Dia") :
    ofxBlockClosed fields = ofxBlockSgml fields ∧
    (∀ (text : String) (ts : List ParsedTransaction),
      processBlocks ofxBlockClosed (closedBlocks text.data) = some ts →
      ts ≠ [] → parseOfx text = some ⟨ts, []⟩) ∧
    parseOfx
        "<OFX><BANKTRANLIST><STMTTRN>\n<DTPOSTED>20240301\n<TRNAMT>-10.00\n<FITID>F1\n<MEMO>PIX LOJA\n</STMTTRN>\n</BANKTRANLIST></OFX>" =
      parseOfx
        "<OFX><BANKTRANLIST><STMTTRN>\n<DTPOSTED>20240301\n<TRNAMT>-10.00\n<FITID>F1\n<MEMO>PIX LOJA\n</BANKTRANLIST></OFX>" ∧
    (parseOfx
        "<OFX><BANKTRANLIST><STMTTRN>\n<DTPOSTED>20240301\n<TRNAMT>-10.00\n<FITID>F1\n<MEMO>PIX LOJA\n</STMTTRN>\n</BANKTRANLIST></OFX>").isSome
      = true := by
  refine ⟨?_, ?_, by decide, by decide⟩
  · cases hn : lookupLast fields "NAME" with
    | none =>
      simp only [ofxBlockClosed, ofxBlockSgml, hn, hm, hstrip,
        Option.getD_some, Option.getD_none]
      rw [if_neg (show ¬("" = "Saldo Anterior" ∨ "" = "Saldo do dia") by
        decide)]
      rw [if_neg (show ¬(false = true) by decide)]
    | some n =>
      obtain ⟨h1, h2, h3⟩ := hname n hn
      simp only [ofxBlockClosed, ofxBlockSgml, hn, hm, hstrip,
        Option.getD_some]
      rw [if_neg (show ¬(n = "Saldo Anterior" ∨ n = "Saldo do dia") by
        rintro (rfl | rfl)
        · exact h1 rfl
        · exact h2 rfl)]
      rw [if_neg (show ¬((n == "Saldo Anterior" || n == "Saldo do Dia") = true)
        by simp [h1, h3])]
  · intro text ts h hne
    simp only [parseOfx, h]
    rw [if_neg hne]

/-- Witness for the amended C7 on a concrete field map with MEMO unaffected
by digit stripping and a non-balance NAME. -/
theorem parseOfx_dialect_agreement_witness :
    ofxBlockClosed
        [("DTPOSTED", "20240301"), ("TRNAMT", "-10.00"), ("FITID", "F1"),
          ("NAME", "LOJA X"), ("MEMO", "PIX LOJA")] =
      ofxBlockSgml
        [("DTPOSTED", "20240301"), ("TRNAMT", "-10.00"), ("FITID", "F1"),
          ("NAME", "LOJA X"), ("MEMO", "PIX LOJA")] ∧
    parseOfx
        "<OFX><BANKTRANLIST><STMTTRN>\n<DTPOSTED>20240301\n<TRNAMT>-10.00\n<FITID>F1\n<MEMO>PIX LOJA\n</STMTTRN>\n</BANKTRANLIST></OFX>" =
      parseOfx
        "<OFX><BANKTRANLIST><STMTTRN>\n<DTPOSTED>20240301\n<TRNAMT>-10.00\n<FITID>F1\n<MEMO>PIX LOJA\n</BANKTRANLIST></OFX>" := by
  have h := parseOfx_dialect_agreement
    [("DTPOSTED", "20240301"), ("TRNAMT", "-10.00"), ("FITID", "F1"),
      ("NAME", "LOJA X"), ("MEMO", "PIX LOJA")] "PIX LOJA"
    (by decide) (by decide)
    (by
      intro n hn
      rw [(by decide : lookupLast
        [("DTPOSTED", "20240301"), ("TRNAMT", "-10.00"), ("FITID", "F1"),
          ("NAME", "LOJA X"), ("MEMO", "PIX LOJA")] "NAME" =
        some "LOJA X")] at hn
      rw [Option.some_inj] at hn
      subst hn
      exact ⟨by decide, by decide, by decide⟩)
  exact ⟨h.1, h.2.2.1⟩

end MeuDinheiro
